import Mathlib

/-!
Verification of the Academick content-ingestion and hybrid-search
specification against the repository's code.

The frontend component `services/frontend/components/ContentManagement.tsx`
is embedded directly: its pure job-record transformations (the `fetchJobs`
mapping, the `processFiles` response handling, the `handleCancelJob` local
update, the processing-status label, the auto-dismiss selection and the
polling-timer management) become Lean functions and a small event-trace
machine.

The backend services (chunk filter, fusion-weight table, rank union of the
hybrid search engine, the ingestion-job state machine) are not part of the
available sources; those parts are modelled from the specification text, as
marked on each definition.

JavaScript semantics notes: optional record fields become `Option`;
`x || d` on strings/numbers (falsy defaults) becomes an explicit
`jsOr...` helper; `s.includes(p)` becomes character-list infix testing;
JS numbers that only ever hold exact decimal values are embedded as `ℚ`.
-/

namespace Academick

/-- JavaScript `x || d` for an optional string: `undefined` and the empty
string are falsy and yield the default. -/
def jsOrStr : Option String → String → String
  | none, d => d
  | some s, d => if s = "" then d else s

/-- JavaScript `x || d` for an optional number: `undefined` and `0` are
falsy and yield the default. -/
def jsOrNum : Option ℚ → ℚ → ℚ
  | none, d => d
  | some x, d => if x = 0 then d else x

/-- JavaScript `x || d` for an optional natural number field. -/
def jsOrNat : Option ℕ → ℕ → ℕ
  | none, d => d
  | some x, d => if x = 0 then d else x

/-- Does `pat` occur as a contiguous run inside `l`? -/
def containsRun (pat : List Char) : List Char → Bool
  | [] => pat.isEmpty
  | c :: rest => pat.isPrefixOf (c :: rest) || containsRun pat rest

/-- JavaScript `s.includes(pat)`: substring containment, as infix of the
character list. -/
def strIncludes (s pat : String) : Bool :=
  containsRun pat.data s.data

/-- JavaScript `s.replace(/_/g, ' ')`: every underscore becomes a space. -/
def replaceUnderscores (s : String) : String :=
  String.mk (s.data.map fun c => if c = '_' then ' ' else c)

/-- The `ProcessingJob` interface of `ContentManagement.tsx`
(lines 17-27): per-job display state held by the component. -/
structure ProcessingJob where
  filename : String
  job_id : String
  status : String
  progress : ℚ
  stage : Option String := none
  chapters_total : Option ℕ := none
  chapters_processed : Option ℕ := none
  warning : Option String := none
  error : Option String := none
  deriving DecidableEq, Repr

/-- A raw job record as fetched from the jobs endpoint in `fetchJobs`
(lines 96-106): every non-identity field may be absent. -/
structure FetchedJob where
  job_id : String
  filename : String
  status : String
  progress : Option ℚ := none
  stage : Option String := none
  chapters_total : Option ℕ := none
  chapters_processed : Option ℕ := none
  warning : Option String := none
  error : Option String := none
  deriving DecidableEq, Repr

/-- The mapping applied to each fetched record in `fetchJobs`
(`ContentManagement.tsx` lines 106-116): a completed job displays
progress 100, otherwise `job.progress || 0`; the chapter counters get the
`|| 0` default. -/
def mapFetchedJob (j : FetchedJob) : ProcessingJob :=
  { job_id := j.job_id
    filename := j.filename
    status := j.status
    progress := if j.status = "completed" then 100 else jsOrNum j.progress 0
    stage := j.stage
    chapters_total := some (jsOrNat j.chapters_total 0)
    chapters_processed := some (jsOrNat j.chapters_processed 0)
    warning := j.warning
    error := j.error }

/-- The processing-status label of `ContentManagement.tsx` lines 682-690:
terminal statuses get fixed labels; an in-progress job with a known
chapter count, still short of the total and not in an embedding/storing
stage, shows `Chapter min(processed+1, total)/total`; otherwise the stage
(underscores as spaces) or a generic label. -/
def statusLabel (job : ProcessingJob) : String :=
  if job.status = "completed" then "Complete"
  else if job.status = "failed" then "Failed"
  else if job.status = "cancelled" then "Cancelled"
  else
    let total := jsOrNat job.chapters_total 0
    let stageHasEmbedding := match job.stage with
      | none => false
      | some s => strIncludes s "embedding"
    let stageHasStoring := match job.stage with
      | none => false
      | some s => strIncludes s "storing"
    if total ≠ 0 ∧ 0 < total ∧ jsOrNat job.chapters_processed 0 < total ∧
        stageHasEmbedding = false ∧ stageHasStoring = false then
      "Chapter " ++ toString (min (jsOrNat job.chapters_processed 0 + 1) total)
        ++ "/" ++ toString total
    else
      match job.stage with
      | none => "Processing..."
      | some s => if s = "" then "Processing..." else replaceUnderscores s

/-- The local job-list update of `handleCancelJob` on a successful cancel
response (`ContentManagement.tsx` lines 260-264): the job with the given
id gets status and stage `cancelled`, every other job is mapped to
itself. -/
def cancelJobUpdate (jobs : List ProcessingJob) (jobId : String) : List ProcessingJob :=
  jobs.map fun j =>
    if j.job_id = jobId then { j with status := "cancelled", stage := some "cancelled" } else j

/-- Outcome of one `handleCancelJob` call: the resulting job list and the
messages the handler sets (`none` = the handler leaves that message
untouched). -/
structure CancelOutcome where
  jobs : List ProcessingJob
  errorMsg : Option String
  successMsg : Option String
  deriving DecidableEq, Repr

/-- The `handleCancelJob` handler (`ContentManagement.tsx` lines 251-274):
on a successful response the list is rewritten by `cancelJobUpdate` and a
success message set; on a failed response the list is untouched and the
error message is `data.detail || 'Failed to cancel job'`. -/
def handleCancelJob (jobs : List ProcessingJob) (jobId : String) (ok : Bool)
    (detail : Option String) : CancelOutcome :=
  if ok then
    { jobs := cancelJobUpdate jobs jobId
      errorMsg := none
      successMsg := some "Job cancellation requested" }
  else
    { jobs := jobs
      errorMsg := some (jsOrStr detail "Failed to cancel job")
      successMsg := none }

/-- An accepted-file record of the upload response consumed by
`processFiles` (`ContentManagement.tsx` lines 299-305). -/
structure UploadJobRec where
  filename : String
  job_id : String
  status : Option String := none
  deriving DecidableEq, Repr

/-- A per-file error record of the upload response consumed by
`processFiles` (`ContentManagement.tsx` lines 307-314). -/
structure UploadErrRec where
  filename : String
  error : String
  deriving DecidableEq, Repr

/-- The job created for an accepted file (`ContentManagement.tsx`
lines 299-305): `status: job.status || 'queued'`, progress 0, stage
`queued`. -/
def mkAcceptedJob (r : UploadJobRec) : ProcessingJob :=
  { filename := r.filename
    job_id := r.job_id
    status := jsOrStr r.status "queued"
    progress := 0
    stage := some "queued" }

/-- The failed display job created for a malformed file
(`ContentManagement.tsx` lines 308-314): empty `job_id`, status `failed`,
that file's error text. -/
def mkErrorJob (er : UploadErrRec) : ProcessingJob :=
  { filename := er.filename
    job_id := ""
    status := "failed"
    progress := 0
    error := some er.error }

/-- Outcome of the ok-response branch of `processFiles`: the display job
list, whether a polling timer was started, and the error message set
(if any). -/
structure UploadOutcome where
  jobs : List ProcessingJob
  pollingStarted : Bool
  errorMsg : Option String
  deriving DecidableEq, Repr

/-- The ok-response branch of `processFiles` (`ContentManagement.tsx`
lines 297-329): accepted jobs are mapped first, then (when the error list
is non-empty) the per-file error jobs are appended; polling starts when
some entry has a status other than `failed`, otherwise the global
`All uploads failed` error is set. -/
def processFilesOk (jobsData : List UploadJobRec) (errorsData : List UploadErrRec) :
    UploadOutcome :=
  let accepted := jobsData.map mkAcceptedJob
  let jobs := if errorsData.length > 0 then accepted ++ errorsData.map mkErrorJob
              else accepted
  let anyLive := jobs.any fun j => j.status != "failed"
  { jobs := jobs
    pollingStarted := anyLive
    errorMsg := if anyLive then none else some "All uploads failed" }

/-- Modelled from the spec: the `IntentCategory` enum of the hybrid
search engine (§3); the intent-classifier and search services are not
among the available sources. -/
inductive IntentCategory
  | QA
  | Summarization
  | Coding
  | Search
  deriving DecidableEq, Repr

/-- Modelled from the spec: the fixed `FusionWeightTable`
`IntentCategory → (dense_weight, sparse_weight)` — QA (0.6, 0.4),
Summarization (0.7, 0.3), Coding (0.4, 0.6), Search (0.5, 0.5) — used by
the hybrid search engine (§4.6 step 3c), whose source is not among the
available files. -/
def fusionWeightTable : IntentCategory → ℚ × ℚ
  | .QA => (6/10, 4/10)
  | .Summarization => (7/10, 3/10)
  | .Coding => (4/10, 6/10)
  | .Search => (5/10, 5/10)

/-- Modelled from the spec: the period-character count of a chunk text
(§4.5); the chunk-filter service is not among the available sources. -/
def periodCount (text : String) : ℕ :=
  text.data.count '.'

/-- Modelled from the spec: the ChunkFilter rejection predicate (§4.5) —
reject when `len(text) < 300` or `count('.') / len(text) > 0.02`; the
filter service is not among the available sources. -/
def chunkFilterRejects (text : String) : Bool :=
  decide (text.length < 300) ||
    decide ((periodCount text : ℚ) / (text.length : ℚ) > 2 / 100)

/-- Modelled from the spec: the filter is applied right after chunking and
a rejected chunk is never stored (§3, §4.5); the ingestion service is not
among the available sources. -/
def storedChunks (chunks : List String) : List String :=
  chunks.filter fun t => !(chunkFilterRejects t)

/-- Modelled from the spec: a transient per-query search candidate (§3);
the search service is not among the available sources. -/
structure SearchCandidate where
  chunk_id : String
  dense_score : ℚ
  sparse_score : ℚ
  fused_score : ℚ
  deriving DecidableEq, Repr

/-- Insert one candidate's fused score into the accumulated union,
keeping the maximum score per chunk id. -/
def updateMax : List (String × ℚ) → String → ℚ → List (String × ℚ)
  | [], cid, s => [(cid, s)]
  | (c, t) :: rest, cid, s =>
    if c = cid then (c, max t s) :: rest else (c, t) :: updateMax rest cid s

/-- Modelled from the spec: the rank-union step of the hybrid search
engine (§4.6 step 4) — merge the per-query-string candidate sets by chunk
id, keeping the maximum fused score seen for each chunk across all query
strings; the search service is not among the available sources. -/
def rankUnion (lists : List (List SearchCandidate)) : List (String × ℚ) :=
  lists.flatten.foldl (fun acc c => updateMax acc c.chunk_id c.fused_score) []

/-- Running maximum over a score list, starting from an optional current
best. -/
def optMax (o : Option ℚ) (l : List ℚ) : Option ℚ :=
  l.foldl (fun a q => some (a.elim q fun x => max x q)) o

/-- Modelled from the spec: the status values of the ingestion-job state
machine (§3, §4.2); the job-coordinator service is not among the
available sources. -/
inductive JobStatus
  | queued
  | processing
  | completed
  | failed
  | cancelled
  deriving DecidableEq, Repr

/-- Is this status terminal (`completed`, `failed` or `cancelled`)? -/
def JobStatus.isTerminal : JobStatus → Bool
  | .completed => true
  | .failed => true
  | .cancelled => true
  | _ => false

/-- Modelled from the spec: the per-job state mutated by the coordinator
(§4.2); progress/stage strings are irrelevant to the claims and
omitted. -/
structure JobState where
  status : JobStatus
  chaptersTotal : ℕ
  chaptersProcessed : ℕ
  cancelRequested : Bool
  deriving DecidableEq, Repr

/-- Modelled from the spec: a job as created on upload acceptance —
queued, nothing processed yet, no cancellation requested. -/
def initJob (total : ℕ) : JobState :=
  { status := .queued
    chaptersTotal := total
    chaptersProcessed := 0
    cancelRequested := false }

/-- Modelled from the spec: the advisory cancel operation (§4.2, §6) — a
queued job moves directly to `cancelled`; a processing job only gets the
cooperative flag set, observed at the next chapter boundary; terminal
jobs are unaffected. -/
def cancelJob (j : JobState) : JobState :=
  match j.status with
  | .queued => { j with status := .cancelled }
  | .processing => { j with cancelRequested := true }
  | _ => j

/-- Modelled from the spec: one transition of the ingestion-job state
machine (§4.2) — dequeue, per-chapter progress, completion, fatal
failure, cooperative cancellation observed at a chapter boundary, and
the advisory cancel request. -/
inductive JobStep : JobState → JobState → Prop
  | dequeue (j : JobState) : j.status = .queued →
      JobStep j { j with status := .processing }
  | chapterDone (j : JobState) : j.status = .processing →
      j.chaptersProcessed < j.chaptersTotal →
      JobStep j { j with chaptersProcessed := j.chaptersProcessed + 1 }
  | complete (j : JobState) : j.status = .processing →
      j.chaptersProcessed = j.chaptersTotal →
      JobStep j { j with status := .completed }
  | fail (j : JobState) : j.status = .processing →
      JobStep j { j with status := .failed }
  | cancelAtBoundary (j : JobState) : j.status = .processing →
      j.cancelRequested = true →
      JobStep j { j with status := .cancelled }
  | requestCancel (j : JobState) : JobStep j (cancelJob j)

/-- The status edges the specification's state machine allows (a
non-status-changing step keeps the same status). -/
def allowedEdge (s t : JobStatus) : Prop :=
  s = t ∨
    (s = .queued ∧ (t = .processing ∨ t = .cancelled)) ∨
    (s = .processing ∧ (t = .completed ∨ t = .failed ∨ t = .cancelled))

/-- A terminal (completed) job state used in witnesses. -/
def termJob : JobState :=
  { status := .completed, chaptersTotal := 2, chaptersProcessed := 2,
    cancelRequested := false }

/-- A terminal (failed) job state used in witnesses. -/
def termJobF : JobState :=
  { status := .failed, chaptersTotal := 2, chaptersProcessed := 1,
    cancelRequested := false }

/-- A candidate ranked 0.9 for chunk `x`, used in witnesses. -/
def candA : SearchCandidate :=
  { chunk_id := "x", dense_score := 0, sparse_score := 0, fused_score := 9/10 }

/-- A candidate ranked 0.7 for chunk `x`, used in witnesses. -/
def candB : SearchCandidate :=
  { chunk_id := "x", dense_score := 0, sparse_score := 0, fused_score := 7/10 }

/-- The newly-terminal filter of `fetchJobs` (`ContentManagement.tsx`
lines 119-122): jobs whose fetched status is `completed` or `failed` and
whose id is not yet in the completed-jobs set. -/
def newlyTerminal (ref : List String) (jobs : List ProcessingJob) : List ProcessingJob :=
  jobs.filter fun j =>
    (j.status == "completed" || j.status == "failed") && !(ref.contains j.job_id)

/-- The auto-dismiss selection of `fetchJobs` (`ContentManagement.tsx`
lines 131-141): among the newly terminal jobs, 5-second dismiss timers are
scheduled exactly for those with status `completed`. -/
def autoDismissScheduled (ref : List String) (jobs : List ProcessingJob) :
    List ProcessingJob :=
  (newlyTerminal ref jobs).filter fun j => j.status == "completed"

/-- The completed-jobs set update of `fetchJobs` (`ContentManagement.tsx`
line 126): every newly terminal job id is added; the set is never pruned
elsewhere. -/
def stepCompletedSet (ref : List String) (jobs : List ProcessingJob) : List String :=
  ref ++ (newlyTerminal ref jobs).map fun j => j.job_id


/-- A sample in-flight job used in witnesses. -/
def jobA : ProcessingJob :=
  { filename := "a.pdf", job_id := "a", status := "processing", progress := 10 }

/-- A second sample job used in witnesses. -/
def jobB : ProcessingJob :=
  { filename := "b.pdf", job_id := "b", status := "queued", progress := 0 }

/-- A completed sample job used in witnesses. -/
def jobC : ProcessingJob :=
  { filename := "c.pdf", job_id := "c", status := "completed", progress := 100 }

/-- A second completed sample job used in witnesses. -/
def jobD : ProcessingJob :=
  { filename := "d.pdf", job_id := "d", status := "completed", progress := 100 }

/-- A failed sample job used in witnesses. -/
def jobF : ProcessingJob :=
  { filename := "f.pdf", job_id := "f", status := "failed", progress := 0 }

/-- A 299-character chunk used in witnesses. -/
def chunk299 : String := String.mk (List.replicate 299 'a')

/-- A 300-character period-free chunk used in witnesses. -/
def chunk300 : String := String.mk (List.replicate 300 'a')

/-- A 1000-character chunk with 21 periods (ratio 0.021). -/
def chunk21of1000 : String :=
  String.mk (List.replicate 21 '.' ++ List.replicate 979 'a')

/-- A 1000-character chunk with 19 periods (ratio 0.019). -/
def chunk19of1000 : String :=
  String.mk (List.replicate 19 '.' ++ List.replicate 981 'a')


/-- Is this display status active — not `completed`, `failed` or
`cancelled` (`ContentManagement.tsx` lines 147-149)? -/
def isActiveStatus (s : String) : Bool :=
  s != "completed" && s != "failed" && s != "cancelled"

/-- The component state relevant to polling-timer management: the
`processing` flag, the timer id tracked by `pollingRef`, the ids of every
interval timer currently running (each created with interval 3000 ms), a
fresh-id counter, whether PDF files are selected, the upload-snapshot
dialog state, the job list, and the error message. -/
structure UIState where
  processing : Bool
  tracked : Option ℕ
  liveTimers : List ℕ
  nextTimer : ℕ
  filesSelected : Bool
  dialogOpen : Bool
  snapshotFilesChosen : Bool
  jobs : List ProcessingJob
  errorMsg : Option String
  deriving DecidableEq, Repr

/-- The component's initial state: nothing selected, no timers, no
jobs. -/
def initUIState : UIState :=
  { processing := false, tracked := none, liveTimers := [], nextTimer := 0,
    filesSelected := false, dialogOpen := false, snapshotFilesChosen := false,
    jobs := [], errorMsg := none }

/-- Events driving the handlers of `ContentManagement.tsx`: selecting PDF
files (`handleFileUpload`, line 213), opening the upload-snapshot dialog
(button disabled while `processing`, lines 893-897), choosing both
snapshot files (dialog inputs, lines 1043-1057), confirming the snapshot
upload (`uploadSnapshot`, lines 420-453 — the dialog action has no
`processing` guard and its `finally` clears `processing`), a completed
`fetchJobs` call carrying the fetched records (lines 87-162), and
clicking Process Files (`processFiles`, lines 276-337; the button is
disabled while `processing`, line 637). -/
inductive UIEvent
  | selectPdfFiles
  | openUploadDialog
  | chooseSnapshotFiles
  | confirmUploadSnapshot
  | fetchJobsDone (fetched : List FetchedJob)
  | clickProcessFiles (jobsData : List UploadJobRec) (errorsData : List UploadErrRec)
  deriving Repr

/-- One event step of the component. `fetchJobsDone` embeds lines 96-157:
map the fetched records, then start a 3000 ms interval (recording it in
`pollingRef`) when some job is active and none is tracked, or clear the
tracked interval and the `processing` flag when no job is active.
`clickProcessFiles` embeds the ok-branch of lines 276-337: when the
response carries a non-failed entry it assigns a fresh 3000 ms interval
to `pollingRef` without clearing a previously tracked one (line 323).
`confirmUploadSnapshot` embeds lines 420-453, whose `finally` resets
`processing` while leaving `pollingRef` untouched. -/
def uiStep (s : UIState) : UIEvent → UIState
  | .selectPdfFiles => { s with filesSelected := true }
  | .openUploadDialog =>
    if s.processing then s else { s with dialogOpen := true }
  | .chooseSnapshotFiles =>
    if s.dialogOpen then { s with snapshotFilesChosen := true } else s
  | .confirmUploadSnapshot =>
    if s.dialogOpen ∧ s.snapshotFilesChosen then
      { s with processing := false, dialogOpen := false,
               snapshotFilesChosen := false }
    else s
  | .fetchJobsDone fetched =>
    let js := fetched.map mapFetchedJob
    let hasActive := js.any fun j => isActiveStatus j.status
    if hasActive ∧ s.tracked = none then
      { s with jobs := js, tracked := some s.nextTimer,
               liveTimers := s.nextTimer :: s.liveTimers,
               nextTimer := s.nextTimer + 1, processing := true }
    else if ¬ hasActive ∧ s.tracked ≠ none then
      { s with jobs := js, tracked := none,
               liveTimers := match s.tracked with
                 | some t => s.liveTimers.erase t
                 | none => s.liveTimers,
               processing := false }
    else { s with jobs := js }
  | .clickProcessFiles jobsData errorsData =>
    if s.processing ∨ ¬ s.filesSelected then s
    else
      let out := processFilesOk jobsData errorsData
      if out.pollingStarted then
        { s with processing := true, jobs := out.jobs, filesSelected := false,
                 tracked := some s.nextTimer,
                 liveTimers := s.nextTimer :: s.liveTimers,
                 nextTimer := s.nextTimer + 1 }
      else
        { s with processing := false, jobs := out.jobs,
                 filesSelected := false, errorMsg := out.errorMsg }

/-- A fetched record for a job still processing, used in the timer-leak
trace. -/
def activeFetched : FetchedJob :=
  { job_id := "j1", filename := "a.pdf", status := "processing" }

/-- A fetched record reporting the uploaded job completed, used in the
timer-leak trace. -/
def doneFetched : FetchedJob :=
  { job_id := "j2", filename := "b.pdf", status := "completed" }

/-- An event sequence permitted by the component's guards: open the
upload-snapshot dialog while idle and choose its files; a poll then
observes an active job and starts the tracked interval (processing
becomes true); confirming the snapshot upload resets `processing` in its
`finally` without touching `pollingRef`; the Process Files button is
thereby re-enabled and the upload's ok-branch overwrites `pollingRef`
with a second interval, orphaning the first. -/
def leakTrace : List UIEvent :=
  [ .selectPdfFiles, .openUploadDialog, .chooseSnapshotFiles,
    .fetchJobsDone [activeFetched], .confirmUploadSnapshot,
    .clickProcessFiles [{ filename := "b.pdf", job_id := "j2" }] [] ]

end Academick

namespace Academick

/-- Looking a chunk id up after one `updateMax` insertion: the inserted
id's best score is refreshed with `max`, every other id is untouched. -/
theorem lookup_updateMax (acc : List (String × ℚ)) (cid id : String) (s : ℚ) :
    List.lookup cid (updateMax acc id s) =
      if cid = id then some ((List.lookup cid acc).elim s fun t => max t s)
      else List.lookup cid acc := by
  induction acc with
  | nil =>
    by_cases h : cid = id
    · simp [updateMax, List.lookup, h]
    · have hbeq : (cid == id) = false := by simp [h]
      simp [updateMax, List.lookup, h, hbeq]
  | cons p rest ih =>
    obtain ⟨c, t⟩ := p
    by_cases hc : c = id
    · subst hc
      rw [show updateMax ((c, t) :: rest) c s = (c, max t s) :: rest from by
        simp [updateMax]]
      by_cases h2 : cid = c
      · subst h2
        simp [List.lookup]
      · have hbeq : (cid == c) = false := by simp [h2]
        simp [List.lookup, hbeq, h2]
    · rw [show updateMax ((c, t) :: rest) id s = (c, t) :: updateMax rest id s from by
        simp [updateMax, hc]]
      by_cases h2 : cid = c
      · subst h2
        simp [List.lookup, hc]
      · have hbeq : (cid == c) = false := by simp [h2]
        simp only [List.lookup, hbeq]
        rw [ih]

/-- Folding candidates into the union: the looked-up score is the running
maximum of the matching candidates' fused scores. -/
theorem lookup_foldl_updateMax (cs : List SearchCandidate)
    (acc : List (String × ℚ)) (cid : String) :
    List.lookup cid
        (cs.foldl (fun a c => updateMax a c.chunk_id c.fused_score) acc) =
      optMax (List.lookup cid acc)
        ((cs.filter fun c => c.chunk_id == cid).map SearchCandidate.fused_score) := by
  induction cs generalizing acc with
  | nil => rfl
  | cons c cs ih =>
    rw [List.foldl_cons, ih]
    by_cases h : cid = c.chunk_id
    · have hf : (c :: cs).filter (fun d => d.chunk_id == cid) =
          c :: cs.filter fun d => d.chunk_id == cid := by
        simp [List.filter_cons, h.symm]
      rw [hf, List.map_cons, lookup_updateMax, if_pos h]
      rfl
    · have hf : (c :: cs).filter (fun d => d.chunk_id == cid) =
          cs.filter fun d => d.chunk_id == cid := by
        have hfalse : (c.chunk_id == cid) = false := by
          simp
          exact fun hh => h hh.symm
        simp [List.filter_cons, hfalse]
      rw [hf, lookup_updateMax, if_neg h]

/-- Looking a chunk id up in the rank union gives the running maximum of
all matching fused scores in the joined candidate lists. -/
theorem lookup_rankUnion (lists : List (List SearchCandidate)) (cid : String) :
    List.lookup cid (rankUnion lists) =
      optMax none
        ((lists.flatten.filter fun c => c.chunk_id == cid).map
          SearchCandidate.fused_score) := by
  have h := lookup_foldl_updateMax lists.flatten [] cid
  simpa [rankUnion] using h

/-- What a produced running maximum means: it is one of the folded scores
(or the start), an upper bound of the scores, and above the start. -/
theorem optMax_spec (l : List ℚ) : ∀ (o : Option ℚ) (q : ℚ), optMax o l = some q →
    (q ∈ l ∨ o = some q) ∧ (∀ x ∈ l, x ≤ q) ∧ (∀ t, o = some t → t ≤ q) := by
  induction l with
  | nil =>
    intro o q h
    refine ⟨Or.inr h, by simp, ?_⟩
    intro t ht
    rw [ht] at h
    injection h with h
    exact le_of_eq h
  | cons a l ih =>
    intro o q h
    have h2 : optMax (some (o.elim a fun x => max x a)) l = some q := h
    obtain ⟨hmem, hub, hstart⟩ := ih _ q h2
    have hvq : (o.elim a fun x => max x a) ≤ q := hstart _ rfl
    have haq : a ≤ q := by
      cases o with
      | none => simpa using hvq
      | some t => exact le_trans (le_max_right t a) (by simpa using hvq)
    refine ⟨?_, ?_, ?_⟩
    · rcases hmem with hq | hq
      · exact Or.inl (List.mem_cons_of_mem a hq)
      · injection hq with hq
        cases o with
        | none =>
          simp only [Option.elim] at hq
          exact Or.inl (hq ▸ List.mem_cons_self a l)
        | some t =>
          simp only [Option.elim] at hq
          rcases max_choice t a with hmax | hmax
          · rw [hmax] at hq
            exact Or.inr (by rw [hq])
          · rw [hmax] at hq
            exact Or.inl (hq ▸ List.mem_cons_self a l)
    · intro x hx
      rcases List.mem_cons.mp hx with rfl | hx
      · exact haq
      · exact hub x hx
    · intro t ht
      subst ht
      have : max t a ≤ q := by simpa using hvq
      exact le_trans (le_max_left t a) this

/-- Folding at least one score always produces a maximum. -/
theorem optMax_some_exists (l : List ℚ) : ∀ v : ℚ, ∃ q, optMax (some v) l = some q := by
  induction l with
  | nil => intro v; exact ⟨v, rfl⟩
  | cons a l ih => intro v; exact ih (max v a)

/-- A non-empty score list has a running maximum even from an empty
start. -/
theorem optMax_none_cons (a : ℚ) (l : List ℚ) : ∃ q, optMax none (a :: l) = some q :=
  optMax_some_exists l a

/-- Membership in the newly-terminal selection, unfolded. -/
theorem mem_newlyTerminal_iff (ref : List String) (jobs : List ProcessingJob)
    (j : ProcessingJob) :
    j ∈ newlyTerminal ref jobs ↔
      j ∈ jobs ∧ (j.status = "completed" ∨ j.status = "failed") ∧ j.job_id ∉ ref := by
  simp [newlyTerminal, List.mem_filter, and_assoc]

/-- Membership in the auto-dismiss selection, unfolded. -/
theorem mem_autoDismissScheduled_iff (ref : List String) (jobs : List ProcessingJob)
    (j : ProcessingJob) :
    j ∈ autoDismissScheduled ref jobs ↔
      j ∈ jobs ∧ j.status = "completed" ∧ j.job_id ∉ ref := by
  simp only [autoDismissScheduled, List.mem_filter, mem_newlyTerminal_iff,
    beq_iff_eq]
  constructor
  · rintro ⟨⟨hj, _, href⟩, hc⟩
    exact ⟨hj, hc, href⟩
  · rintro ⟨hj, hc, href⟩
    exact ⟨⟨hj, Or.inl hc, href⟩, hc⟩

/-- The completed-jobs set only grows. -/
theorem mem_stepCompletedSet_of_mem (ref : List String) (jobs : List ProcessingJob)
    (x : String) (hx : x ∈ ref) : x ∈ stepCompletedSet ref jobs :=
  List.mem_append_left _ hx

/-- The completed-jobs set only grows across any sequence of polls. -/
theorem mem_foldl_stepCompletedSet (snaps : List (List ProcessingJob))
    (ref : List String) (x : String) (hx : x ∈ ref) :
    x ∈ snaps.foldl stepCompletedSet ref := by
  induction snaps generalizing ref with
  | nil => exact hx
  | cons s rest ih =>
    exact ih (stepCompletedSet ref s) (mem_stepCompletedSet_of_mem ref s x hx)

/-- A job scheduled for auto-dismissal is recorded in the updated
completed-jobs set. -/
theorem scheduled_mem_stepCompletedSet (ref : List String)
    (jobs : List ProcessingJob) (j : ProcessingJob)
    (h : j ∈ autoDismissScheduled ref jobs) :
    j.job_id ∈ stepCompletedSet ref jobs := by
  have hnt : j ∈ newlyTerminal ref jobs := by
    have := h
    simp only [autoDismissScheduled, List.mem_filter] at this
    exact this.1
  exact List.mem_append_right _ (List.mem_map_of_mem _ hnt)

/-- The job list built by `processFilesOk` is exactly the accepted jobs
followed by the error jobs. -/
theorem processFilesOk_jobs_eq (jobsData : List UploadJobRec)
    (errorsData : List UploadErrRec) :
    (processFilesOk jobsData errorsData).jobs =
      jobsData.map mkAcceptedJob ++ errorsData.map mkErrorJob := by
  cases errorsData with
  | nil => simp [processFilesOk]
  | cons e es => simp [processFilesOk]

/-- The polling decision of `processFilesOk` is the `any`-scan of the
produced job list. -/
theorem processFilesOk_polling_eq (jobsData : List UploadJobRec)
    (errorsData : List UploadErrRec) :
    (processFilesOk jobsData errorsData).pollingStarted =
      (processFilesOk jobsData errorsData).jobs.any fun j => j.status != "failed" :=
  rfl

/-- The error message of `processFilesOk` is governed by the same
`any`-scan. -/
theorem processFilesOk_error_eq (jobsData : List UploadJobRec)
    (errorsData : List UploadErrRec) :
    (processFilesOk jobsData errorsData).errorMsg =
      if (processFilesOk jobsData errorsData).jobs.any (fun j => j.status != "failed")
      then none else some "All uploads failed" :=
  rfl

/-- The `any`-scan is true exactly when not every produced entry has
status `failed`. -/
theorem processFilesOk_any_iff (jobsData : List UploadJobRec)
    (errorsData : List UploadErrRec) :
    ((processFilesOk jobsData errorsData).jobs.any
        (fun j => j.status != "failed")) = true ↔
      ¬ ∀ pj ∈ (processFilesOk jobsData errorsData).jobs, pj.status = "failed" := by
  rw [List.any_eq_true]
  push_neg
  constructor
  · rintro ⟨pj, hpj, hne⟩
    exact ⟨pj, hpj, by simpa using hne⟩
  · rintro ⟨pj, hpj, hne⟩
    exact ⟨pj, hpj, by simpa using hne⟩

/-- C5: a job snapshot with status `processing`, `chapters_total = 10`,
`chapters_processed = 4` and stage `"chunking"` (which contains neither
`embedding` nor `storing`) renders the progress label `Chapter 5/10`,
i.e. chapter `chapters_processed + 1` of `chapters_total`. -/
theorem statusLabel_chapter_five_of_ten (job : ProcessingJob)
    (hs : job.status = "processing")
    (ht : job.chapters_total = some 10)
    (hp : job.chapters_processed = some 4)
    (hg : job.stage = some "chunking") :
    statusLabel job = "Chapter 5/10" := by
  obtain ⟨fn, jid, st, pr, stg, tot, proc, w, e⟩ := job
  simp only at hs ht hp hg
  subst hs ht hp hg
  simp only [statusLabel]
  decide

/-- Witness for C5 at a concrete job snapshot. -/
theorem statusLabel_chapter_five_of_ten_witness :
    statusLabel { filename := "book.pdf", job_id := "j1", status := "processing",
                  progress := 40, stage := some "chunking", chapters_total := some 10,
                  chapters_processed := some 4 } = "Chapter 5/10" :=
  statusLabel_chapter_five_of_ten _ rfl rfl rfl rfl

/-- C8: the `fetchJobs` record mapping assigns displayed progress 100 to
every job whose fetched status is `completed`, whatever progress the
store reported, and assigns the reported progress (0 when absent) to
every other job. -/
theorem mapFetchedJob_progress (j : FetchedJob) :
    (j.status = "completed" → (mapFetchedJob j).progress = 100) ∧
    (j.status ≠ "completed" → (mapFetchedJob j).progress = j.progress.getD 0) := by
  constructor
  · intro h
    simp [mapFetchedJob, h]
  · intro h
    simp only [mapFetchedJob, if_neg h]
    cases hp : j.progress with
    | none => rfl
    | some p =>
      by_cases h0 : p = 0
      · simp [jsOrNum, h0]
      · simp [jsOrNum, h0]

/-- Witness for C8: a completed job with reported progress 40 displays 100;
a processing job with no reported progress displays 0. -/
theorem mapFetchedJob_progress_witness :
    (mapFetchedJob { job_id := "j1", filename := "a.pdf", status := "completed",
                     progress := some 40 }).progress = 100 ∧
    (mapFetchedJob { job_id := "j2", filename := "b.pdf",
                     status := "processing" }).progress = 0 :=
  ⟨(mapFetchedJob_progress _).1 rfl,
   ((mapFetchedJob_progress { job_id := "j2", filename := "b.pdf",
                              status := "processing" }).2 (by decide)).trans rfl⟩

/-- C10: on a successful cancel the job list keeps its length; the job at
any position whose id differs from the cancelled one is completely
unchanged; the job carrying the cancelled id ends with status and stage
`cancelled` and every other field unchanged; on a failed cancel the job
list is untouched and only the error message is set (the response detail,
or the fixed fallback text). -/
theorem handleCancelJob_frame (jobs : List ProcessingJob) (jobId : String)
    (detail : Option String) :
    ((handleCancelJob jobs jobId true detail).jobs.length = jobs.length) ∧
    (∀ i : ℕ, ∀ j, jobs[i]? = some j → j.job_id ≠ jobId →
      (handleCancelJob jobs jobId true detail).jobs[i]? = some j) ∧
    (∀ i : ℕ, ∀ j, jobs[i]? = some j → j.job_id = jobId →
      ∃ j2, (handleCancelJob jobs jobId true detail).jobs[i]? = some j2 ∧
        j2.status = "cancelled" ∧ j2.stage = some "cancelled" ∧
        j2.filename = j.filename ∧ j2.job_id = j.job_id ∧
        j2.progress = j.progress ∧ j2.chapters_total = j.chapters_total ∧
        j2.chapters_processed = j.chapters_processed ∧
        j2.warning = j.warning ∧ j2.error = j.error) ∧
    ((handleCancelJob jobs jobId false detail).jobs = jobs ∧
      (handleCancelJob jobs jobId false detail).errorMsg =
        some (jsOrStr detail "Failed to cancel job") ∧
      (handleCancelJob jobs jobId false detail).successMsg = none) := by
  refine ⟨?_, ?_, ?_, rfl, rfl, rfl⟩
  · simp [handleCancelJob, cancelJobUpdate]
  · intro i j hij hne
    simp [handleCancelJob, cancelJobUpdate, List.getElem?_map, hij, hne]
  · intro i j hij heq
    refine ⟨{ j with status := "cancelled", stage := some "cancelled" }, ?_,
      rfl, rfl, rfl, rfl, rfl, rfl, rfl, rfl, rfl⟩
    simp [handleCancelJob, cancelJobUpdate, List.getElem?_map, hij, heq]



/-- Witness for C10 on a two-job list: cancelling `"a"` leaves `jobB`
untouched, rewrites only `jobA`'s status and stage, and a failed cancel
leaves the whole list unchanged. -/
theorem handleCancelJob_frame_witness :
    ((handleCancelJob [jobA, jobB] "a" true none).jobs[1]? = some jobB) ∧
    (∃ j2, (handleCancelJob [jobA, jobB] "a" true none).jobs[0]? = some j2 ∧
      j2.status = "cancelled" ∧ j2.stage = some "cancelled" ∧
      j2.filename = jobA.filename ∧ j2.job_id = jobA.job_id ∧
      j2.progress = jobA.progress ∧ j2.chapters_total = jobA.chapters_total ∧
      j2.chapters_processed = jobA.chapters_processed ∧
      j2.warning = jobA.warning ∧ j2.error = jobA.error) ∧
    (handleCancelJob [jobA, jobB] "a" false none).jobs = [jobA, jobB] :=
  ⟨(handleCancelJob_frame [jobA, jobB] "a" none).2.1 1 jobB (by decide) (by decide),
   (handleCancelJob_frame [jobA, jobB] "a" none).2.2.1 0 jobA (by decide) (by decide),
   (handleCancelJob_frame [jobA, jobB] "a" none).2.2.2.1⟩

/-- C6: the ok-branch of the upload handler produces one tracked job per
accepted file and one failed display job (empty `job_id`, that file's
error text) per malformed file, the accepted jobs being created whatever
the error list contains; the global `All uploads failed` error is raised,
and polling withheld, exactly when every produced entry has status
`failed`. -/
theorem processFilesOk_per_file (jobsData : List UploadJobRec)
    (errorsData : List UploadErrRec) :
    ((processFilesOk jobsData errorsData).jobs.length =
      jobsData.length + errorsData.length) ∧
    (∀ r ∈ jobsData, ∃ pj ∈ (processFilesOk jobsData errorsData).jobs,
      pj.filename = r.filename ∧ pj.job_id = r.job_id ∧
      pj.status = jsOrStr r.status "queued" ∧ pj.stage = some "queued" ∧
      pj.progress = 0) ∧
    (∀ er ∈ errorsData, ∃ pj ∈ (processFilesOk jobsData errorsData).jobs,
      pj.filename = er.filename ∧ pj.job_id = "" ∧ pj.status = "failed" ∧
      pj.error = some er.error ∧ pj.progress = 0) ∧
    ((processFilesOk jobsData errorsData).errorMsg = some "All uploads failed" ↔
      ∀ pj ∈ (processFilesOk jobsData errorsData).jobs, pj.status = "failed") ∧
    ((processFilesOk jobsData errorsData).pollingStarted = true ↔
      ¬ ∀ pj ∈ (processFilesOk jobsData errorsData).jobs, pj.status = "failed") := by
  have hjobs := processFilesOk_jobs_eq jobsData errorsData
  refine ⟨?_, ?_, ?_, ?_, ?_⟩
  · simp [hjobs]
  · intro r hr
    exact ⟨mkAcceptedJob r, by simp [hjobs]; exact Or.inl ⟨r, hr, rfl⟩,
      rfl, rfl, rfl, rfl, rfl⟩
  · intro er her
    exact ⟨mkErrorJob er, by simp [hjobs]; exact Or.inr ⟨er, her, rfl⟩,
      rfl, rfl, rfl, rfl, rfl⟩
  · rw [processFilesOk_error_eq]
    by_cases hb : ((processFilesOk jobsData errorsData).jobs.any
        (fun j => j.status != "failed")) = true
    · rw [if_pos hb]
      constructor
      · intro hcontra; exact Option.noConfusion hcontra
      · intro hall
        exact absurd hall ((processFilesOk_any_iff jobsData errorsData).mp hb)
    · rw [if_neg hb]
      have hall : ∀ pj ∈ (processFilesOk jobsData errorsData).jobs,
          pj.status = "failed" := by
        by_contra hc
        exact hb ((processFilesOk_any_iff jobsData errorsData).mpr hc)
      exact ⟨fun _ => hall, fun _ => rfl⟩
  · rw [processFilesOk_polling_eq]
    exact processFilesOk_any_iff jobsData errorsData

/-- Witness for C6: one accepted file and one malformed file — the
accepted file's job is tracked, the malformed file gets a failed entry
with empty id, and no global error is raised. -/
theorem processFilesOk_per_file_witness :
    (∃ pj ∈ (processFilesOk [{ filename := "good.pdf", job_id := "g1" }]
        [{ filename := "bad.pdf", error := "not a PDF" }]).jobs,
      pj.filename = "good.pdf" ∧ pj.job_id = "g1" ∧
      pj.status = jsOrStr none "queued" ∧ pj.stage = some "queued" ∧
      pj.progress = 0) ∧
    (∃ pj ∈ (processFilesOk [{ filename := "good.pdf", job_id := "g1" }]
        [{ filename := "bad.pdf", error := "not a PDF" }]).jobs,
      pj.filename = "bad.pdf" ∧ pj.job_id = "" ∧ pj.status = "failed" ∧
      pj.error = some "not a PDF" ∧ pj.progress = 0) :=
  ⟨(processFilesOk_per_file [{ filename := "good.pdf", job_id := "g1" }]
      [{ filename := "bad.pdf", error := "not a PDF" }]).2.1
      { filename := "good.pdf", job_id := "g1" } (by decide),
   (processFilesOk_per_file [{ filename := "good.pdf", job_id := "g1" }]
      [{ filename := "bad.pdf", error := "not a PDF" }]).2.2.1
      { filename := "bad.pdf", error := "not a PDF" } (by decide)⟩

/-- C9: auto-dismiss timers are scheduled exactly for the completed jobs
not yet recorded in the completed-jobs set; failed jobs are never
scheduled; and once a job has been scheduled (hence recorded), no later
poll — after any number of intermediate polls — ever schedules a job with
the same id again. -/
theorem autoDismiss_only_new_completed :
    (∀ ref jobs (j : ProcessingJob), j ∈ autoDismissScheduled ref jobs ↔
      j ∈ jobs ∧ j.status = "completed" ∧ j.job_id ∉ ref) ∧
    (∀ ref jobs (j : ProcessingJob), j ∈ jobs → j.status = "failed" →
      j ∉ autoDismissScheduled ref jobs) ∧
    (∀ ref jobs (snaps : List (List ProcessingJob)) jobs2 (j j2 : ProcessingJob),
      j ∈ autoDismissScheduled ref jobs →
      j2 ∈ autoDismissScheduled
        (List.foldl stepCompletedSet (stepCompletedSet ref jobs) snaps) jobs2 →
      j2.job_id ≠ j.job_id) := by
  refine ⟨mem_autoDismissScheduled_iff, ?_, ?_⟩
  · intro ref jobs j _ hf hmem
    have hc := ((mem_autoDismissScheduled_iff ref jobs j).mp hmem).2.1
    rw [hf] at hc
    exact absurd hc (by decide)
  · intro ref jobs snaps jobs2 j j2 h1 h2 heq
    have hj : j.job_id ∈ snaps.foldl stepCompletedSet (stepCompletedSet ref jobs) :=
      mem_foldl_stepCompletedSet snaps _ _
        (scheduled_mem_stepCompletedSet ref jobs j h1)
    have hj2 := ((mem_autoDismissScheduled_iff _ jobs2 j2).mp h2).2.2
    rw [heq] at hj2
    exact hj2 hj



/-- Witness for C9: with an empty completed set, the completed job is
scheduled, the failed job is not, and a job scheduled on a later poll must
carry a different id. -/
theorem autoDismiss_only_new_completed_witness :
    jobC ∈ autoDismissScheduled [] [jobC, jobF] ∧
    jobF ∉ autoDismissScheduled [] [jobC, jobF] ∧
    jobD.job_id ≠ jobC.job_id :=
  ⟨(autoDismiss_only_new_completed.1 [] [jobC, jobF] jobC).mpr (by decide),
   autoDismiss_only_new_completed.2.1 [] [jobC, jobF] jobF (by decide) rfl,
   autoDismiss_only_new_completed.2.2 [] [jobC, jobF] [] [jobD] jobC jobD
     (by decide) (by decide)⟩

/-- C1: each fusion-weight entry matches the fixed table, dense and
sparse weight sum to 1 for every intent, Coding is sparse-dominant and
Summarization dense-dominant. -/
theorem fusionWeightTable_spec :
    (∀ c, (fusionWeightTable c).1 + (fusionWeightTable c).2 = 1) ∧
    fusionWeightTable IntentCategory.QA = (6/10, 4/10) ∧
    fusionWeightTable IntentCategory.Summarization = (7/10, 3/10) ∧
    fusionWeightTable IntentCategory.Coding = (4/10, 6/10) ∧
    fusionWeightTable IntentCategory.Search = (5/10, 5/10) ∧
    (fusionWeightTable IntentCategory.Coding).1 <
      (fusionWeightTable IntentCategory.Coding).2 ∧
    (fusionWeightTable IntentCategory.Summarization).2 <
      (fusionWeightTable IntentCategory.Summarization).1 := by
  refine ⟨fun c => ?_, rfl, rfl, rfl, rfl,
    by norm_num [fusionWeightTable], by norm_num [fusionWeightTable]⟩
  cases c <;> norm_num [fusionWeightTable]

/-- C2: every 299-character chunk is rejected; a 300-character chunk with
period ratio at most 0.02 is accepted; a chunk with period ratio exactly
0.021 is rejected whatever its length; a chunk of length at least 300
with period ratio 0.019 is accepted; and no rejected chunk is ever among
the stored chunks. -/
theorem chunkFilter_boundaries :
    (∀ s : String, s.length = 299 → chunkFilterRejects s = true) ∧
    (∀ s : String, s.length = 300 →
      (periodCount s : ℚ) / (s.length : ℚ) ≤ 2 / 100 →
      chunkFilterRejects s = false) ∧
    (∀ s : String, (periodCount s : ℚ) / (s.length : ℚ) = 21 / 1000 →
      chunkFilterRejects s = true) ∧
    (∀ s : String, 300 ≤ s.length →
      (periodCount s : ℚ) / (s.length : ℚ) = 19 / 1000 →
      chunkFilterRejects s = false) ∧
    (∀ cs (s : String), s ∈ storedChunks cs → chunkFilterRejects s = false) := by
  refine ⟨?_, ?_, ?_, ?_, ?_⟩
  · intro s h
    simp [chunkFilterRejects, h]
  · intro s h hle
    have h1 : ¬ (s.length < 300) := by omega
    have h2 : ¬ ((periodCount s : ℚ) / (s.length : ℚ) > 2 / 100) := not_lt.mpr hle
    simp [chunkFilterRejects, h1, h2]
  · intro s hr
    by_cases hl : s.length < 300
    · simp [chunkFilterRejects, hl]
    · have h2 : (periodCount s : ℚ) / (s.length : ℚ) > 2 / 100 := by
        rw [hr]; norm_num
      simp [chunkFilterRejects, h2]
  · intro s hlen hr
    have h1 : ¬ (s.length < 300) := by omega
    have h2 : ¬ ((periodCount s : ℚ) / (s.length : ℚ) > 2 / 100) := by
      rw [hr]; norm_num
    simp [chunkFilterRejects, h1, h2]
  · intro cs s hs
    simp only [storedChunks, List.mem_filter, Bool.not_eq_eq_eq_not,
      Bool.not_true] at hs
    exact hs.2



/-- Evaluation lemma: `chunk299` has 299 characters. -/
theorem chunk299_length : chunk299.length = 299 := by
  unfold chunk299
  show (List.replicate 299 'a').length = 299
  rw [List.length_replicate]

/-- Evaluation lemma: `chunk300` has 300 characters. -/
theorem chunk300_length : chunk300.length = 300 := by
  unfold chunk300
  show (List.replicate 300 'a').length = 300
  rw [List.length_replicate]

/-- Evaluation lemma: `chunk300` has no periods. -/
theorem chunk300_periodCount : periodCount chunk300 = 0 := by
  unfold periodCount chunk300
  show (List.replicate 300 'a').count '.' = 0
  rw [List.count_replicate]
  decide

/-- Evaluation lemma: `chunk21of1000` has 1000 characters. -/
theorem chunk21of1000_length : chunk21of1000.length = 1000 := by
  unfold chunk21of1000
  show (List.replicate 21 '.' ++ List.replicate 979 'a').length = 1000
  rw [List.length_append, List.length_replicate, List.length_replicate]

/-- Evaluation lemma: `chunk21of1000` has 21 periods. -/
theorem chunk21of1000_periodCount : periodCount chunk21of1000 = 21 := by
  unfold periodCount chunk21of1000
  show (List.replicate 21 '.' ++ List.replicate 979 'a').count '.' = 21
  rw [List.count_append, List.count_replicate, List.count_replicate]
  decide

/-- Evaluation lemma: `chunk19of1000` has 1000 characters. -/
theorem chunk19of1000_length : chunk19of1000.length = 1000 := by
  unfold chunk19of1000
  show (List.replicate 19 '.' ++ List.replicate 981 'a').length = 1000
  rw [List.length_append, List.length_replicate, List.length_replicate]

/-- Evaluation lemma: `chunk19of1000` has 19 periods. -/
theorem chunk19of1000_periodCount : periodCount chunk19of1000 = 19 := by
  unfold periodCount chunk19of1000
  show (List.replicate 19 '.' ++ List.replicate 981 'a').count '.' = 19
  rw [List.count_append, List.count_replicate, List.count_replicate]
  decide

/-- Evaluation lemma: the period-free 300-character chunk passes the
filter, so it is stored. -/
theorem chunk300_mem_stored : chunk300 ∈ storedChunks [chunk300] := by
  have hrej : chunkFilterRejects chunk300 = false := by
    have h1 : ¬ (chunk300.length < 300) := by rw [chunk300_length]; omega
    have h2 : ¬ ((periodCount chunk300 : ℚ) / (chunk300.length : ℚ) > 2 / 100) := by
      rw [chunk300_periodCount, chunk300_length]; norm_num
    simp [chunkFilterRejects, h1, h2]
  simp [storedChunks, List.mem_filter, hrej]

/-- Witness for C2 at the four boundary chunks and a stored chunk. -/
theorem chunkFilter_boundaries_witness :
    chunkFilterRejects chunk299 = true ∧
    chunkFilterRejects chunk300 = false ∧
    chunkFilterRejects chunk21of1000 = true ∧
    chunkFilterRejects chunk19of1000 = false ∧
    (chunk300 ∈ storedChunks [chunk300] ∧ chunkFilterRejects chunk300 = false) :=
  ⟨chunkFilter_boundaries.1 chunk299 chunk299_length,
   chunkFilter_boundaries.2.1 chunk300 chunk300_length
     (by rw [chunk300_periodCount, chunk300_length]; norm_num),
   chunkFilter_boundaries.2.2.1 chunk21of1000
     (by rw [chunk21of1000_periodCount, chunk21of1000_length]; norm_num),
   chunkFilter_boundaries.2.2.2.1 chunk19of1000
     (by rw [chunk19of1000_length]; omega)
     (by rw [chunk19of1000_periodCount, chunk19of1000_length]; norm_num),
   chunk300_mem_stored,
   chunkFilter_boundaries.2.2.2.2 [chunk300] chunk300 chunk300_mem_stored⟩

/-- C3: a score in the rank union is the maximum fused score the chunk
received across all query strings — it is the fused score of some
matching candidate and an upper bound of all matching candidates' fused
scores (so never their sum), every merged candidate keeps exactly one
entry per chunk id, and for a chunk top-ranked 0.9 and 0.7 by two query
strings the unioned score is 0.9. -/
theorem rankUnion_keeps_max :
    (∀ (lists : List (List SearchCandidate)) (cid : String) (q : ℚ),
      List.lookup cid (rankUnion lists) = some q →
      (∃ c ∈ lists.flatten, c.chunk_id = cid ∧ c.fused_score = q) ∧
      (∀ c ∈ lists.flatten, c.chunk_id = cid → c.fused_score ≤ q)) ∧
    (∀ (lists : List (List SearchCandidate)) (c : SearchCandidate),
      c ∈ lists.flatten → ∃ q, List.lookup c.chunk_id (rankUnion lists) = some q) ∧
    List.lookup "x" (rankUnion [[candA], [candB]]) = some (9/10) := by
  refine ⟨?_, ?_, ?_⟩
  · intro lists cid q h
    rw [lookup_rankUnion] at h
    obtain ⟨hmem, hub, _⟩ := optMax_spec _ none q h
    constructor
    · rcases hmem with hq | hq
      · obtain ⟨c, hc, hfc⟩ := List.mem_map.mp hq
        obtain ⟨hcj, hcid⟩ := List.mem_filter.mp hc
        exact ⟨c, hcj, by simpa using hcid, hfc⟩
      · exact absurd hq (by simp)
    · intro c hcj hcid
      apply hub
      exact List.mem_map_of_mem _ (List.mem_filter.mpr ⟨hcj, by simp [hcid]⟩)
  · intro lists c hc
    rw [lookup_rankUnion]
    have hcf : c ∈ lists.flatten.filter fun d => d.chunk_id == c.chunk_id :=
      List.mem_filter.mpr ⟨hc, by simp⟩
    have hne : (lists.flatten.filter fun d => d.chunk_id == c.chunk_id).map
        SearchCandidate.fused_score ≠ [] := by
      simp only [ne_eq, List.map_eq_nil_iff]
      intro hnil
      rw [hnil] at hcf
      cases hcf
    obtain ⟨a, l2, hl⟩ := List.exists_cons_of_ne_nil hne
    rw [hl]
    exact optMax_none_cons a l2
  · show some (max ((9 : ℚ)/10) (7/10)) = some (9/10)
    rw [max_eq_left (by norm_num : (7 : ℚ)/10 ≤ 9/10)]

/-- Witness for C3: for the two singleton candidate sets scoring chunk
`x` at 0.9 and 0.7, the union's entry for `x` is the fused score of a
matching candidate, and the chunk of any merged candidate gets some
unioned score. -/
theorem rankUnion_keeps_max_witness :
    (∃ c ∈ ([[candA], [candB]] : List (List SearchCandidate)).flatten,
      c.chunk_id = "x" ∧ c.fused_score = 9/10) ∧
    (∃ q, List.lookup candA.chunk_id (rankUnion [[candA], [candB]]) = some q) :=
  ⟨(rankUnion_keeps_max.1 [[candA], [candB]] "x" (9/10)
      rankUnion_keeps_max.2.2).1,
   rankUnion_keeps_max.2.1 [[candA], [candB]] candA (List.Mem.head _)⟩

/-- Cancelling a terminal job changes nothing. -/
theorem cancelJob_terminal (j : JobState) (ht : j.status.isTerminal = true) :
    cancelJob j = j := by
  cases hs : j.status
  · rw [hs] at ht; exact absurd ht (by decide)
  · rw [hs] at ht; exact absurd ht (by decide)
  · simp [cancelJob, hs]
  · simp [cancelJob, hs]
  · simp [cancelJob, hs]

/-- C4: every step of the ingestion-job state machine follows the allowed
edges (queued to processing or cancelled; processing to completed, failed
or cancelled); a step from a terminal state changes nothing, and cancel
is a no-op on terminal jobs; cancelling a queued job moves it directly to
`cancelled` with zero chapters processed; and every state reachable from
a fresh job keeps `chaptersProcessed ≤ chaptersTotal`. -/
theorem jobStateMachine_spec :
    (∀ j k : JobState, JobStep j k → allowedEdge j.status k.status) ∧
    (∀ j k : JobState, j.status.isTerminal = true → JobStep j k → k = j) ∧
    (∀ j : JobState, j.status.isTerminal = true → cancelJob j = j) ∧
    (∀ total : ℕ, JobStep (initJob total) (cancelJob (initJob total)) ∧
      (cancelJob (initJob total)).status = .cancelled ∧
      (cancelJob (initJob total)).chaptersProcessed = 0) ∧
    (∀ (total : ℕ) (j : JobState),
      Relation.ReflTransGen JobStep (initJob total) j →
      j.chaptersProcessed ≤ j.chaptersTotal) := by
  refine ⟨?_, ?_, cancelJob_terminal, ?_, ?_⟩
  · intro j k h
    cases h with
    | dequeue hq => exact Or.inr (Or.inl ⟨hq, Or.inl rfl⟩)
    | chapterDone hp hlt => exact Or.inl rfl
    | complete hp he => exact Or.inr (Or.inr ⟨hp, Or.inl rfl⟩)
    | fail hp => exact Or.inr (Or.inr ⟨hp, Or.inr (Or.inl rfl)⟩)
    | cancelAtBoundary hp hc => exact Or.inr (Or.inr ⟨hp, Or.inr (Or.inr rfl)⟩)
    | requestCancel =>
      cases hs : j.status
      · exact Or.inr (Or.inl ⟨rfl, Or.inr (by simp [cancelJob, hs])⟩)
      · exact Or.inl (by simp [cancelJob, hs])
      · exact Or.inl (by simp [cancelJob, hs])
      · exact Or.inl (by simp [cancelJob, hs])
      · exact Or.inl (by simp [cancelJob, hs])
  · intro j k ht h
    cases h with
    | dequeue hq => rw [hq] at ht; exact absurd ht (by decide)
    | chapterDone hp hlt => rw [hp] at ht; exact absurd ht (by decide)
    | complete hp he => rw [hp] at ht; exact absurd ht (by decide)
    | fail hp => rw [hp] at ht; exact absurd ht (by decide)
    | cancelAtBoundary hp hc => rw [hp] at ht; exact absurd ht (by decide)
    | requestCancel => exact cancelJob_terminal j ht
  · intro total
    exact ⟨JobStep.requestCancel _, rfl, rfl⟩
  · intro total j h
    induction h with
    | refl => simp [initJob]
    | @tail b c h1 h2 ih =>
      cases h2 with
      | dequeue hq => simpa using ih
      | chapterDone hp hlt => simpa using Nat.succ_le_of_lt hlt
      | complete hp he => simpa using ih
      | fail hp => simpa using ih
      | cancelAtBoundary hp hc => simpa using ih
      | requestCancel =>
        cases hs : b.status <;> simp only [cancelJob, hs] <;> simpa using ih

/-- Witness for C4: a concrete dequeue step follows an allowed edge, a
step from a terminal job changes nothing, cancel leaves a failed job
untouched, and the fresh job satisfies the chapter invariant. -/
theorem jobStateMachine_spec_witness :
    allowedEdge (initJob 3).status ({ initJob 3 with
      status := JobStatus.processing } : JobState).status ∧
    cancelJob termJob = termJob ∧
    cancelJob termJobF = termJobF ∧
    (initJob 3).chaptersProcessed ≤ (initJob 3).chaptersTotal :=
  ⟨jobStateMachine_spec.1 _ _ (JobStep.dequeue (initJob 3) rfl),
   jobStateMachine_spec.2.1 termJob (cancelJob termJob) rfl
     (JobStep.requestCancel termJob),
   jobStateMachine_spec.2.2.1 termJobF rfl,
   jobStateMachine_spec.2.2.2.2 3 (initJob 3) Relation.ReflTransGen.refl⟩

/-- C7 (code-bug evidence): after the `leakTrace` events — all permitted
by the component's guards — two 3000 ms interval timers are live while
the job list contains an active job, refuting that at most one polling
timer exists; and after a further poll in which every job is terminal,
the tracked timer is cleared but the orphaned first timer is still
running, refuting that the polling timer is then stopped. -/
theorem pollingTimer_leak :
    ((List.foldl uiStep initUIState leakTrace).liveTimers.length = 2 ∧
      ((List.foldl uiStep initUIState leakTrace).jobs.any
        fun j => isActiveStatus j.status) = true) ∧
    ((uiStep (List.foldl uiStep initUIState leakTrace)
        (UIEvent.fetchJobsDone [doneFetched])).jobs.all
        (fun j => !(isActiveStatus j.status)) = true ∧
      (uiStep (List.foldl uiStep initUIState leakTrace)
        (UIEvent.fetchJobsDone [doneFetched])).tracked = none ∧
      (uiStep (List.foldl uiStep initUIState leakTrace)
        (UIEvent.fetchJobsDone [doneFetched])).liveTimers = [0]) := by
  decide

end Academick
